import Mathlib

/-!
Shallow embedding of
`src/compiler/src/iree/compiler/Codegen/Common/GPU/GPUDistributionPatterns.cpp`
(IREE GPU vector distribution patterns) together with theorems settling the
specification claims about it.

Machine integers of the source (`int64_t` positions, shapes, lane ids) are
modelled as `Nat`: all quantities involved are non-negative and no arithmetic
in the modelled code can overflow ranges relevant to the claims.
-/

namespace VectorDist

/-- The `IREE::VectorExt::LayoutDimension` enum: the closed set of labels a
layout axis can carry.  `LANEX`, `LANEY`, `LANEZ` are the three lane-coordinate
labels; the others are structural (batch / vectorized) axes. -/
inductive LayoutDimension where
  | BATCHX
  | BATCHY
  | LANEX
  | LANEY
  | LANEZ
  | VECTORX
  | VECTORY
  | VECTORZ
deriving DecidableEq

/-- Whether a label is one of the three lane-coordinate labels
(the `LANEX`/`LANEY`/`LANEZ` cases of the `switch` at lines 46-58). -/
def isLaneLabel : LayoutDimension → Bool
  | .LANEX => true
  | .LANEY => true
  | .LANEZ => true
  | _ => false

/-- `PerDimLayoutAttr`: the ordered (label, extent) list of one vector
dimension; first entry slowest-changing, last entry fastest-changing.
The source stores labels and shapes as two parallel arrays
(`getLabels()` / `getShapes()`); we store them zipped. -/
abbrev PerDimLayout : Type := List (LayoutDimension × Nat)

/-- `LayoutAttr`: one `PerDimLayoutAttr` per vector dimension
(`getLayouts()`), plus the lane grid `(X, Y, Z)` extents (`getLaneGrid()`). -/
structure Layout where
  layouts : List PerDimLayout
  laneGrid : Nat × Nat × Nat
deriving DecidableEq

/-- `LayoutIterator::State`, observed through
`state.lookup(label).getPosition()`: a concrete integer position per label.
Modelled as a total function; the source asserts the label is present. -/
abbrev IterState : Type := LayoutDimension → Nat

/-- `mlir::AffineExpr` as used by `computeSIMDIndex` and by transfer
permutation maps: constants, dimension references, symbols, addition and
multiplication. -/
inductive AffineExpr where
  | const (c : Nat)
  | dimRef (i : Nat)
  | symbol (i : Nat)
  | add (a b : AffineExpr)
  | mul (a b : AffineExpr)
deriving DecidableEq

/-- Evaluation of an affine expression: `d` gives dimension values, `s` gives
symbol values (for `computeSIMDIndex` the map has 0 dims and 3 symbols). -/
def AffineExpr.eval (d s : Nat → Nat) : AffineExpr → Nat
  | .const c => c
  | .dimRef i => d i
  | .symbol i => s i
  | .add a b => a.eval d s + b.eval d s
  | .mul a b => a.eval d s * b.eval d s

/-- One step of the loop at lines 42-61: given the running `(offset, stride)`
expressions and the current `(label, shape)` entry, add the entry's
contribution to `offset` (the `switch` at lines 46-59) and then multiply
`stride` by the entry's shape (line 60).  `threadX`/`threadY`/`threadZ` are
the bound symbols 0, 1, 2 (line 35). -/
def dimExprStep (state : IterState) (acc : AffineExpr × AffineExpr)
    (p : LayoutDimension × Nat) : AffineExpr × AffineExpr :=
  let offset :=
    match p.1 with
    | .LANEX => AffineExpr.add acc.1 (.mul acc.2 (.symbol 0))
    | .LANEY => AffineExpr.add acc.1 (.mul acc.2 (.symbol 1))
    | .LANEZ => AffineExpr.add acc.1 (.mul acc.2 (.symbol 2))
    | l => AffineExpr.add acc.1 (.mul acc.2 (.const (state l)))
  (offset, AffineExpr.mul acc.2 (.const p.2))

/-- The offset expression built for one vector dimension (lines 40-61): walk
the dimension's entries reversed (fastest-changing first, `llvm::reverse` at
line 42) starting from `offset = 0`, `stride = 1`. -/
def buildDimOffset (state : IterState) (dim : PerDimLayout) : AffineExpr :=
  (dim.reverse.foldl (dimExprStep state) (.const 0, .const 1)).1

/-- `mlir::affine::delinearizeIndex`: row-major decomposition of a linear
index against a basis; coordinate `i` is the residual divided by the product
of the remaining (faster) basis entries. -/
def delinearize (lin : Nat) : List Nat → List Nat
  | [] => []
  | _b :: rest =>
    let stride := rest.prod
    lin / stride :: delinearize (lin % stride) rest

/-- Lines 63-74: the lane grid is materialized in the order `[Z, Y, X]`
(lines 64-67), the lane id is delinearized against it, and the three
resulting coordinates are read back out reversed as `(X, Y, Z)`
(lines 72-74). -/
def laneCoords (laneId : Nat) (grid : Nat × Nat × Nat) : Nat × Nat × Nat :=
  match delinearize laneId [grid.2.2, grid.2.1, grid.1] with
  | [z, y, x] => (x, y, z)
  | _ => (0, 0, 0)

/-- The symbol environment of the `affine.apply` at lines 77-79: the operands
`laneGridVals = [x, y, z]` bind symbols 0, 1, 2. -/
def laneEnv (coords : Nat × Nat × Nat) : Nat → Nat
  | 0 => coords.1
  | 1 => coords.2.1
  | 2 => coords.2.2
  | _ => 0

/-- `computeSIMDIndex` (lines 30-84), instrumented with the number of
lane-id delinearizations the rewriter emits: the loop over the layout's
dimensions (line 39) builds the dimension's offset expression, then — still
inside the loop — delinearizes the lane id (lines 63-74) and applies the
offset expression to the lane coordinates (lines 77-79).  Returns the list
of per-dimension indices and the delinearization count. -/
def computeSIMDIndexTrace (state : IterState) (layout : Layout)
    (laneId : Nat) : List Nat × Nat :=
  layout.layouts.foldl
    (fun acc dim =>
      let offset := buildDimOffset state dim
      let coords := laneCoords laneId layout.laneGrid
      (acc.1 ++ [offset.eval (fun _ => 0) (laneEnv coords)], acc.2 + 1))
    ([], 0)

/-- The per-dimension indices produced by `computeSIMDIndex` (lines 30-84). -/
def computeSIMDIndex (state : IterState) (layout : Layout)
    (laneId : Nat) : List Nat :=
  (computeSIMDIndexTrace state layout laneId).1

/-- The digit an entry's label contributes in the spec's description of the
addressing walk: a lane-coordinate label contributes the corresponding lane
coordinate, any other label contributes the state's position for it. -/
def digitOf (state : IterState) (coords : Nat × Nat × Nat) :
    LayoutDimension → Nat
  | .LANEX => coords.1
  | .LANEY => coords.2.1
  | .LANEZ => coords.2.2
  | l => state l

/-- The mixed-radix sum described by the spec, one dimension at a time: walk
the dimension's (label, extent) list fastest- to slowest-changing with a
running stride (initially 1) and offset (initially 0); each entry adds
`stride * digit` and then multiplies the stride by its extent. -/
def specDimAddress (state : IterState) (coords : Nat × Nat × Nat)
    (dim : PerDimLayout) : Nat :=
  (dim.reverse.foldl
    (fun acc p => (acc.1 + acc.2 * digitOf state coords p.1, acc.2 * p.2))
    (0, 1)).1

/-- Is this affine expression a direct domain-dimension reference
(`dyn_cast<AffineDimExpr>` at line 178 succeeding)? -/
def isDimRef : AffineExpr → Bool
  | .dimRef _ => true
  | _ => false

/-- `mlir::AffineMap` as consumed by `getReducedPermutation`: a domain
dimension count and the ordered result expressions. -/
structure AffineMap where
  numDims : Nat
  results : List AffineExpr
deriving DecidableEq

/-- Does the map contain a result that is not a direct dimension reference
(the broadcasting case of lines 176-182)? -/
def hasBroadcast (m : AffineMap) : Bool :=
  m.results.any (fun r => !isDimRef r)

/-- The outcome of one `matchAndRewrite` attempt.  `noMatch` is the
recoverable `failure()` a pattern returns; `fatal` is a process-terminating
`llvm::report_fatal_error` / failed assertion; `success` carries the
produced rewrite. -/
inductive RewriteResult (α : Type) where
  | noMatch
  | fatal
  | success (out : α)
deriving DecidableEq

/-- The loop of `getReducedPermutation` (lines 176-188): process the map's
results in order; a result that is a dimension reference contributes its
position minus `leadingUnitDims`, any other result hits
`llvm::report_fatal_error` (lines 179-182, modelled as `Except.error`).
The debug-only assertion `pos >= leadingUnitDims` (line 185) is not modelled;
`Nat` subtraction is used as the source's unsigned subtraction, which the
claims only exercise at inputs where `pos >= leadingUnitDims` holds. -/
def reduceResults (leadingUnitDims : Nat) :
    List AffineExpr → Except Unit (List Nat)
  | [] => .ok []
  | .dimRef pos :: rest =>
    match reduceResults leadingUnitDims rest with
    | .ok tail => .ok ((pos - leadingUnitDims) :: tail)
    | .error e => .error e
  | _ :: _rest => .error ()

/-- `getReducedPermutation` (lines 164-190): `leadingUnitDims` is the number
of domain dimensions minus the number of results (lines 174-175), and each
dimension-reference result contributes its position reduced by it.  A fatal
error (broadcasting result) is `Except.error ()`. -/
def getReducedPermutation (m : AffineMap) : Except Unit (List Nat) :=
  reduceResults (m.numDims - m.results.length) m.results

/-- `PerDimLayoutAttr::getShape(dim)`.  Modelled from the spec: the extent
carried by the given label in this per-dimension list, if present (the
implementation lives in the VectorExt dialect, outside this file; the spec
describes the width lookup as "the extent of the vectorized-axis label on
the memory layout's fastest-changing dimension, or 1 if absent"). -/
def getShape (dim : PerDimLayout) (label : LayoutDimension) : Option Nat :=
  (dim.find? (fun p => p.1 = label)).map (fun p => p.2)

/-- `getLoadStoreWidth` (lines 256-263): the extent of `VECTORX` on the
layout's fastest-changing (last) dimension, or 1 if absent.  The source
calls `.back()` on the dimension list; an empty list (never produced by the
external layout analysis) is mapped to the default width 1. -/
def getLoadStoreWidth (l : Layout) : Nat :=
  match l.layouts.getLast? with
  | some fastestChanging =>
    match getShape fastestChanging .VECTORX with
    | some width => width
    | none => 1
  | none => 1

/-- `LayoutAttr::permute(permutation)`.  Modelled from the spec:
"`permute(layout, perm)` → new LayoutDescriptor whose per-dimension list is
reordered by `perm` ... Fails if `perm` is not a valid permutation of the
dimension count" (the implementation lives in the VectorExt dialect, outside
this file).  Failure is `none` (a process-terminating condition at the call
site, line 212). -/
def permute (l : Layout) (perm : List Nat) : Option Layout :=
  if perm.length = l.layouts.length ∧ perm.Nodup ∧
      ∀ i ∈ perm, i < l.layouts.length then
    some ⟨perm.map (fun i => l.layouts.getD i []), l.laneGrid⟩
  else none

/-- `signature[value]`: the `VectorLayoutInterface` assigned to a vector
value.  `dyn_cast<LayoutAttr>` succeeds only on the `layoutAttr` form; any
other implementation of the interface exposes only its distributed shape. -/
inductive VectorLayoutInterface where
  | layoutAttr (l : Layout)
  | otherLayout (distShape : List Nat)
deriving DecidableEq

/-- `VectorLayoutInterface::getDistributedShape` for a `LayoutAttr`.
Modelled from the spec: "the shape of the array each lane must locally hold
for a value under `layout` (product, per dimension, of all non-lane-label
extents)" (the implementation lives in the VectorExt dialect, outside this
file). -/
def distributedShape (l : Layout) : List Nat :=
  l.layouts.map (fun dim =>
    ((dim.filter (fun p => !isLaneLabel p.1)).map (fun p => p.2)).prod)

/-- `getDistributedShape` through the interface. -/
def getDistributedShape : VectorLayoutInterface → List Nat
  | .layoutAttr l => distributedShape l
  | .otherLayout s => s

/-- Does `dyn_cast<LayoutAttr>` on the signature entry succeed
(lines 275-276 / 319-320)? -/
def isLayoutAttrSig : Option VectorLayoutInterface → Bool
  | some (.layoutAttr _) => true
  | _ => false

/-- A `vector.transfer_read` / `vector.transfer_write` as the patterns
inspect it: its permutation map, and whether the transfer would require
partial/masked access.  The source never reads the masking requirement
(only the TODO comments at lines 281 and 325 mention it). -/
structure TransferOp where
  permutationMap : AffineMap
  requiresMasking : Bool
deriving DecidableEq

/-- The data the generated access sequence of one transfer is derived from:
the memory layout (the register layout permuted into memory order,
lines 209-212) and the load/store width (line 214). -/
structure XferRewrite where
  memoryLayout : Layout
  loadWidth : Nat
deriving DecidableEq

/-- The outcome of `DistributeXferLayoutAttr::accessMemory` (lines 202-228)
for a transfer with register layout `vectorLayout`: reduce the permutation
map (fatal on broadcasting), permute the register layout into the memory
layout (fatal if the reduced permutation is invalid, line 212), then emit
the iteration's accesses — abstracted here as the successful
`XferRewrite`. -/
def accessMemoryOutcome (vectorLayout : Layout) (m : AffineMap) :
    RewriteResult XferRewrite :=
  match getReducedPermutation m with
  | .error _ => .fatal
  | .ok permutation =>
    match permute vectorLayout permutation with
    | none => .fatal
    | some memoryLayout => .success ⟨memoryLayout, getLoadStoreWidth memoryLayout⟩

/-- `DistributeTransferReadLayoutAttr::matchAndRewrite` (lines 272-294).
The `none` signature case is modelled from the spec: the driver wrapper
(outside this file) returns no-match when the value's layout is unassigned;
a wrong-kind layout fails `dyn_cast<LayoutAttr>` (lines 275-279).  The
masking requirement is never consulted (TODO at line 281). -/
def distributeTransferRead (sig : Option VectorLayoutInterface)
    (readOp : TransferOp) : RewriteResult XferRewrite :=
  match sig with
  | none => .noMatch
  | some (.otherLayout _) => .noMatch
  | some (.layoutAttr vectorLayout) =>
    accessMemoryOutcome vectorLayout readOp.permutationMap

/-- `DistributeTransferWriteLayoutAttr::matchAndRewrite` (lines 316-331),
symmetric to the read pattern (signature lookup on the written vector,
lines 319-323; masking TODO at line 325). -/
def distributeTransferWrite (sig : Option VectorLayoutInterface)
    (writeOp : TransferOp) : RewriteResult XferRewrite :=
  match sig with
  | none => .noMatch
  | some (.otherLayout _) => .noMatch
  | some (.layoutAttr vectorLayout) =>
    accessMemoryOutcome vectorLayout writeOp.permutationMap

/-- The value attribute of an `arith.constant`: a `SplatElementsAttr`
carrying one scalar (`dyn_cast<SplatElementsAttr>` succeeds, lines 97-99),
a non-splat elements attribute, or a non-elements attribute (e.g. a plain
scalar attribute). -/
inductive ConstValue where
  | splatAttr (scalar : Int)
  | denseAttr (elems : List Int)
  | nonElementsAttr
deriving DecidableEq

/-- An `arith.constant` as the pattern inspects it: its result type —
`some (shape, elementType)` when vector-typed (`dyn_cast<VectorValue>`
succeeds, lines 92-94), `none` otherwise — and its value attribute.  The
pattern's output is modelled with the same structure. -/
structure ConstantOp where
  resultType : Option (List Nat × String)
  value : ConstValue
deriving DecidableEq

/-- The scalar elements a vector-typed constant denotes: a splat denotes
its scalar replicated over the shape's element count. -/
def constElements (op : ConstantOp) : List Int :=
  match op.resultType, op.value with
  | some (shape, _), .splatAttr s => List.replicate shape.prod s
  | some _, .denseAttr es => es
  | _, _ => []

/-- Is the value attribute a splat (`dyn_cast<SplatElementsAttr>`
succeeding)? -/
def isSplatValue : ConstValue → Bool
  | .splatAttr _ => true
  | _ => false

/-- `DistributeConstants::matchAndRewrite` (lines 89-113): `failure()` on a
non-vector result (lines 92-94) or a non-splat value (lines 97-99); the
`none` signature case is modelled from the spec: the driver wrapper (outside
this file) returns no-match when a vector value's layout is unassigned.
Otherwise a constant of the distributed shape carrying the same splat scalar
is produced (lines 104-112). -/
def distributeConstants (op : ConstantOp)
    (sig : Option VectorLayoutInterface) : RewriteResult ConstantOp :=
  match op.resultType with
  | none => .noMatch
  | some (_shape, elementType) =>
    match op.value with
    | .splatAttr s =>
      match sig with
      | none => .noMatch
      | some layout =>
        .success ⟨some (getDistributedShape layout, elementType), .splatAttr s⟩
    | _ => .noMatch

/-- A value as the elementwise pattern sees it: a scalar of some type, or a
vector with a shape and an element type. -/
inductive OpValue where
  | scalarVal (t : String)
  | vectorVal (shape : List Nat) (elemType : String)
deriving DecidableEq

/-- `dyn_cast<VectorValue>` succeeding on a value. -/
def isVector : OpValue → Bool
  | .vectorVal _ _ => true
  | _ => false

/-- An elementwise op as `DistributeElementwise` inspects it: its name,
operands, results and attribute dictionary (attribute values abstracted as
numbers). -/
structure ElementwiseOp where
  opName : String
  operands : List OpValue
  results : List OpValue
  attrs : List (String × Nat)
deriving DecidableEq

/-- The replacement op built at lines 147-154: a name, distributed operands,
distributed result types and an attribute dictionary. -/
structure DistributedOp where
  opName : String
  operands : List OpValue
  resultTypes : List OpValue
  attrs : List (String × Nat)
deriving DecidableEq

/-- `op->getAttr(name)`: dictionary lookup. -/
def getAttr (attrs : List (String × Nat)) (name : String) : Option Nat :=
  (attrs.find? (fun p => p.1 = name)).map (fun p => p.2)

/-- `arith::FastMathFlagsAttr::getMnemonic()` (line 151). -/
def fastmathAttrName : String := "fastmath"

/-- Lines 150-154: the replacement op is created with no attributes, then
the original's fastmath attribute — and only it — is copied forward when
present. -/
def propagateFastmath (attrs : List (String × Nat)) : List (String × Nat) :=
  match getAttr attrs fastmathAttrName with
  | some v => [(fastmathAttrName, v)]
  | none => []

/-- Substituting one value by its distributed form: a vector operand is
replaced by `getDistributed(rewriter, operand, signature[operand])`, whose
type is the layout's distributed shape over the same element type
(lines 124-130); a vector result type is rebuilt the same way
(lines 134-144); scalars pass through.  The `none` branch is unreachable
behind the wrapper check of `distributeElementwise`. -/
def distributeValue (sig : OpValue → Option VectorLayoutInterface) :
    OpValue → OpValue
  | .scalarVal t => .scalarVal t
  | .vectorVal shape elemType =>
    match sig (.vectorVal shape elemType) with
    | some li => .vectorVal (getDistributedShape li) elemType
    | none => .vectorVal shape elemType

/-- `DistributeElementwise::matchAndRewrite` (lines 120-159).  The guard is
modelled from the spec: the driver wrapper (outside this file) returns
no-match when the layout of any vector operand or vector result is
unassigned.  Otherwise the op is rebuilt over distributed operands and
result types (lines 122-148), carrying forward only the fastmath attribute
(lines 150-154). -/
def distributeElementwise (op : ElementwiseOp)
    (sig : OpValue → Option VectorLayoutInterface) :
    RewriteResult DistributedOp :=
  if (op.operands ++ op.results).all
      (fun v => !isVector v || (sig v).isSome) then
    .success
      { opName := op.opName
        operands := op.operands.map (distributeValue sig)
        resultTypes := op.results.map (distributeValue sig)
        attrs := propagateFastmath op.attrs }
  else .noMatch

/-- The value of a fastest-first mixed-radix digit list under a digit
assignment `d`: head digit plus head extent times the value of the rest.
Used to reason about the per-dimension addressing sums. -/
def radixDigitsSum (d : LayoutDimension → Nat) :
    List (LayoutDimension × Nat) → Nat
  | [] => 0
  | p :: rest => d p.1 + p.2 * radixDigitsSum d rest

/-! Concrete inputs used by counterexamples and witnesses. -/

/-- The all-zero iteration state. -/
def stateA : IterState := fun _ => 0

/-- An iteration state at position 1 on the `BATCHX` axis. -/
def stateB : IterState := fun l =>
  match l with
  | .BATCHX => 1
  | _ => 0

/-- A one-dimensional layout `[(BATCHX, 2), (LANEX, 2), (VECTORX, 2)]` over a
two-lane grid. -/
def layoutW9 : Layout := ⟨[[(.BATCHX, 2), (.LANEX, 2), (.VECTORX, 2)]], (2, 1, 1)⟩

/-- A two-dimensional layout over a two-lane grid. -/
def layoutW8 : Layout := ⟨[[(.LANEX, 2)], [(.VECTORX, 2)]], (2, 1, 1)⟩

/-- A one-dimensional layout with a single `VECTORX` entry. -/
def layoutOne : Layout := ⟨[[(.VECTORX, 1)]], (1, 1, 1)⟩

/-- The identity permutation map on one dimension. -/
def idMap : AffineMap := ⟨1, [.dimRef 0]⟩

/-- A transfer whose permutation map is the identity but which would require
partial/masked access. -/
def maskedXfer : TransferOp := ⟨idMap, true⟩

/-- A permutation map containing a broadcast: its second result is the
constant 0, not a dimension reference. -/
def broadcastMap : AffineMap := ⟨2, [.dimRef 1, .const 0]⟩

/-- A transfer carrying the broadcasting map. -/
def broadcastXfer : TransferOp := ⟨broadcastMap, false⟩

/-- An elementwise op with one vector operand and one vector result. -/
def vecAddOp : ElementwiseOp :=
  ⟨"arith.addf", [.vectorVal [4] "f32"], [.vectorVal [4] "f32"], []⟩

/-- A scalar elementwise op carrying a fastmath attribute and one other
attribute. -/
def fmOp : ElementwiseOp :=
  ⟨"arith.addf", [.scalarVal "f32"], [.scalarVal "f32"],
    [("fastmath", 7), ("other", 1)]⟩

/-- The replacement the elementwise pattern builds for `fmOp` when no operand
or result is a vector. -/
def fmOut : DistributedOp :=
  ⟨"arith.addf", [.scalarVal "f32"], [.scalarVal "f32"], [("fastmath", 7)]⟩

/-! ## Helper lemmas -/

/-- The accumulating loop of `computeSIMDIndex`: pushing one value per
dimension while counting iterations is a map plus a length. -/
lemma foldl_push_count {α β : Type} (f : α → β) :
    ∀ (l : List α) (acc : List β) (n : Nat),
    l.foldl (fun acc2 dim => (acc2.1 ++ [f dim], acc2.2 + 1)) (acc, n)
      = (acc ++ l.map f, n + l.length) := by
  intro l
  induction l with
  | nil => intro acc n; simp
  | cons a as ih =>
    intro acc n
    rw [List.foldl_cons, ih]
    simp
    omega

/-- `computeSIMDIndexTrace` as a map over the layout's dimensions paired
with the dimension count. -/
lemma computeSIMDIndexTrace_eq (state : IterState) (layout : Layout)
    (laneId : Nat) :
    computeSIMDIndexTrace state layout laneId
      = (layout.layouts.map (fun dim =>
          (buildDimOffset state dim).eval (fun _ => 0)
            (laneEnv (laneCoords laneId layout.laneGrid))),
         layout.layouts.length) := by
  unfold computeSIMDIndexTrace
  rw [foldl_push_count (fun dim =>
    (buildDimOffset state dim).eval (fun _ => 0)
      (laneEnv (laneCoords laneId layout.laneGrid))) layout.layouts [] 0]
  simp

/-- Evaluating the affine (offset, stride) pair built by the loop of
`computeSIMDIndex` agrees with the numeric walk that accumulates
`digitOf` contributions. -/
lemma dimExpr_foldl_eval (state : IterState) (coords : Nat × Nat × Nat) :
    ∀ (l : List (LayoutDimension × Nat)) (o s : AffineExpr),
    (((l.foldl (dimExprStep state) (o, s)).1).eval (fun _ => 0) (laneEnv coords),
     ((l.foldl (dimExprStep state) (o, s)).2).eval (fun _ => 0) (laneEnv coords))
      = l.foldl
          (fun acc p => (acc.1 + acc.2 * digitOf state coords p.1, acc.2 * p.2))
          (o.eval (fun _ => 0) (laneEnv coords),
           s.eval (fun _ => 0) (laneEnv coords)) := by
  intro l
  induction l with
  | nil => intro o s; rfl
  | cons p rest ih =>
    intro o s
    rw [List.foldl_cons, List.foldl_cons, ih]
    congr 1
    obtain ⟨label, extent⟩ := p
    cases label <;>
      simp [dimExprStep, AffineExpr.eval, digitOf, laneEnv]

/-- The per-dimension offset expression of `computeSIMDIndex`, evaluated at
the lane coordinates, is the spec's per-dimension mixed-radix sum. -/
lemma buildDimOffset_eval (state : IterState) (coords : Nat × Nat × Nat)
    (dim : PerDimLayout) :
    (buildDimOffset state dim).eval (fun _ => 0) (laneEnv coords)
      = specDimAddress state coords dim := by
  unfold buildDimOffset specDimAddress
  have h := dimExpr_foldl_eval state coords dim.reverse (.const 0) (.const 1)
  have h2 := congrArg Prod.fst h
  simpa [AffineExpr.eval] using h2

/-- `computeSIMDIndex` as the map of the spec's per-dimension address over
the layout's dimensions. -/
lemma computeSIMDIndex_eq_specMap (state : IterState) (layout : Layout)
    (laneId : Nat) :
    computeSIMDIndex state layout laneId
      = layout.layouts.map
          (specDimAddress state (laneCoords laneId layout.laneGrid)) := by
  unfold computeSIMDIndex
  rw [computeSIMDIndexTrace_eq]
  simp [buildDimOffset_eval]

/-- The numeric (offset, stride) walk over a fastest-first digit list is an
offset plus the stride times the list's mixed-radix value. -/
lemma foldl_radix (d : LayoutDimension → Nat) :
    ∀ (l : List (LayoutDimension × Nat)) (o s : Nat),
    l.foldl (fun acc p => (acc.1 + acc.2 * d p.1, acc.2 * p.2)) (o, s)
      = (o + s * radixDigitsSum d l, s * (l.map (fun p => p.2)).prod) := by
  intro l
  induction l with
  | nil => intro o s; simp [radixDigitsSum]
  | cons p rest ih =>
    intro o s
    rw [List.foldl_cons, ih]
    simp [radixDigitsSum]
    constructor
    · ring
    · ring

/-- `specDimAddress` is the mixed-radix value of the dimension's
fastest-first digit list. -/
lemma specDimAddress_eq_radix (state : IterState) (coords : Nat × Nat × Nat)
    (dim : PerDimLayout) :
    specDimAddress state coords dim
      = radixDigitsSum (digitOf state coords) dim.reverse := by
  unfold specDimAddress
  rw [foldl_radix]
  simp

/-- A non-lane label's digit is the state's position for it. -/
lemma digitOf_eq_state (state : IterState) (coords : Nat × Nat × Nat)
    (l : LayoutDimension) (h : isLaneLabel l = false) :
    digitOf state coords l = state l := by
  cases l <;> simp_all [digitOf, isLaneLabel]

/-- A lane label's digit does not depend on the iteration state. -/
lemma digitOf_lane_eq (s1 s2 : IterState) (coords : Nat × Nat × Nat)
    (l : LayoutDimension) (h : isLaneLabel l = true) :
    digitOf s1 coords l = digitOf s2 coords l := by
  cases l <;> simp_all [digitOf, isLaneLabel]

/-- Mixed-radix uniqueness: two digit assignments that differ somewhere on
the list, with every differing digit in range of its extent and all extents
positive, give distinct values. -/
lemma radixDigitsSum_ne (d1 d2 : LayoutDimension → Nat) :
    ∀ (L : List (LayoutDimension × Nat)),
    (∀ p ∈ L, 0 < p.2) →
    (∀ p ∈ L, d1 p.1 ≠ d2 p.1 → d1 p.1 < p.2 ∧ d2 p.1 < p.2) →
    (∃ p ∈ L, d1 p.1 ≠ d2 p.1) →
    radixDigitsSum d1 L ≠ radixDigitsSum d2 L := by
  intro L
  induction L with
  | nil =>
    intro _ _ hdiff
    rcases hdiff with ⟨p, hp, _⟩
    simp at hp
  | cons p rest ih =>
    intro hpos hlt hdiff heq
    simp only [radixDigitsSum] at heq
    by_cases hd : d1 p.1 = d2 p.1
    · rw [hd] at heq
      have h2 : p.2 * radixDigitsSum d1 rest = p.2 * radixDigitsSum d2 rest := by
        omega
      have h3 : radixDigitsSum d1 rest = radixDigitsSum d2 rest :=
        Nat.eq_of_mul_eq_mul_left (hpos p (by simp)) h2
      rcases hdiff with ⟨q, hq, hqne⟩
      rcases List.mem_cons.mp hq with h | h
      · rw [h] at hqne
        exact hqne hd
      · exact ih (fun r hr => hpos r (by simp [hr]))
          (fun r hr => hlt r (by simp [hr])) ⟨q, h, hqne⟩ h3
    · obtain ⟨hb1, hb2⟩ := hlt p (by simp) hd
      have hmod := congrArg (fun t => t % p.2) heq
      simp only [Nat.add_mul_mod_self_left] at hmod
      rw [Nat.mod_eq_of_lt hb1, Nat.mod_eq_of_lt hb2] at hmod
      exact hd hmod

/-- If two maps of the same function family agree as lists, they agree on
every member. -/
lemma eq_of_map_eq {α β : Type} (f g : α → β) :
    ∀ (l : List α), l.map f = l.map g → ∀ x ∈ l, f x = g x := by
  intro l
  induction l with
  | nil => intro _ x hx; simp at hx
  | cons a as ih =>
    intro heq x hx
    rw [List.map_cons, List.map_cons] at heq
    injection heq with h1 h2
    rcases List.mem_cons.mp hx with h | h
    · rw [h]; exact h1
    · exact ih h2 x h

/-- Mapping two functions that differ on a member gives distinct lists. -/
lemma map_ne_of_mem_ne {α β : Type} (f g : α → β) (l : List α) (x : α)
    (hx : x ∈ l) (hne : f x ≠ g x) : l.map f ≠ l.map g := by
  intro heq
  exact hne (eq_of_map_eq f g l heq x hx)

/-- Reducing a result list that is entirely dimension references yields the
positions lowered by the leading-dimension count. -/
lemma reduceResults_dims (k : Nat) :
    ∀ (poss : List Nat),
    reduceResults k (poss.map AffineExpr.dimRef)
      = .ok (poss.map (fun p => p - k)) := by
  intro poss
  induction poss with
  | nil => rfl
  | cons p rest ih => simp [reduceResults, ih]

/-- Reducing a result list containing a non-dimension result hits the fatal
error, whatever the rest of the list looks like. -/
lemma reduceResults_broadcast (k : Nat) :
    ∀ (rs : List AffineExpr), rs.any (fun r => !isDimRef r) = true →
    reduceResults k rs = .error () := by
  intro rs
  induction rs with
  | nil => intro h; simp at h
  | cons r rest ih =>
    intro h
    cases r with
    | dimRef pos =>
      rw [List.any_cons] at h
      simp only [isDimRef, Bool.not_true, Bool.false_or] at h
      simp [reduceResults, ih h]
    | const c => simp [reduceResults]
    | symbol i => simp [reduceResults]
    | add a b => simp [reduceResults]
    | mul a b => simp [reduceResults]

/-- `accessMemory` never produces a recoverable no-match: its only outcomes
are a fatal condition or the generated access sequence. -/
lemma accessMemoryOutcome_ne_noMatch (l : Layout) (m : AffineMap) :
    accessMemoryOutcome l m ≠ RewriteResult.noMatch := by
  unfold accessMemoryOutcome
  cases hgr : getReducedPermutation m with
  | error e => simp
  | ok perm =>
    cases hp : permute l perm with
    | none => simp [hp]
    | some mem => simp [hp]

/-- Lookup in a singleton dictionary at its own key. -/
lemma getAttr_single_same (n : String) (v : Nat) : getAttr [(n, v)] n = some v := by
  simp [getAttr]

/-- Lookup in a singleton dictionary at any other key. -/
lemma getAttr_single_other (n m : String) (v : Nat) (h : n ≠ m) :
    getAttr [(n, v)] m = none := by
  simp [getAttr, List.find?, h]

/-! ## Claim theorems -/

/-- Claim C1: for every `arith.constant` whose result is vector-typed, whose
value is a splat, and which has an assigned layout `L`, the splat-constant
distribution pattern succeeds and replaces the value with a splat constant of
shape `distributedShape(L)` whose every element is the identical scalar, the
element type being preserved. -/
theorem distributeConstants_splat (shape : List Nat) (elementType : String)
    (s : Int) (layout : VectorLayoutInterface) :
    distributeConstants ⟨some (shape, elementType), .splatAttr s⟩ (some layout)
      = .success ⟨some (getDistributedShape layout, elementType), .splatAttr s⟩
    ∧ constElements ⟨some (getDistributedShape layout, elementType), .splatAttr s⟩
      = List.replicate (getDistributedShape layout).prod s :=
  ⟨rfl, rfl⟩

/-- Claim C2: for every vector dimension of a layout, the address computed by
`computeSIMDIndex` from an iteration state, the layout and a lane identity is
the mixed-radix sum obtained by walking that dimension's (label, extent) list
fastest- to slowest-changing with a running stride starting at 1 and offset
starting at 0, lane-coordinate labels contributing `stride * coordinate` and
all other labels contributing `stride * position`, the stride being multiplied
by each entry's extent. -/
theorem computeSIMDIndex_matches_spec_walk (state : IterState)
    (layout : Layout) (laneId : Nat) :
    computeSIMDIndex state layout laneId
      = layout.layouts.map
          (specDimAddress state (laneCoords laneId layout.laneGrid)) :=
  computeSIMDIndex_eq_specMap state layout laneId

/-- Claim C5: the splat-constant distribution pattern returns a recoverable
no-match exactly when the constant's result is not vector-typed, its value is
not a splat, or no layout is assigned to its result. -/
theorem distributeConstants_noMatch_iff (op : ConstantOp)
    (sig : Option VectorLayoutInterface) :
    distributeConstants op sig = .noMatch
      ↔ (op.resultType = none ∨ isSplatValue op.value = false ∨ sig = none) := by
  obtain ⟨rt, v⟩ := op
  cases rt with
  | none => simp [distributeConstants]
  | some t =>
    obtain ⟨sh, et⟩ := t
    cases v <;> cases sig <;> simp [distributeConstants, isSplatValue]

/-- Claim C6: for every projected-permutation map whose results are all
direct domain-dimension references, the permutation reduction returns, in
result order, each result dimension's domain position minus the number of
leading projected-out dimensions (the domain size minus the result count). -/
theorem getReducedPermutation_on_permutation (numDims : Nat) (poss : List Nat)
    (_hvalid : ∀ p ∈ poss, numDims - poss.length ≤ p) :
    getReducedPermutation ⟨numDims, poss.map AffineExpr.dimRef⟩
      = .ok (poss.map (fun p => p - (numDims - poss.length))) := by
  unfold getReducedPermutation
  simp only [List.length_map]
  exact reduceResults_dims (numDims - poss.length) poss

/-- Witness for C6, the spec's own example: a permutation map over 2 result
dimensions that swaps them, with 0 leading projected dimensions, reduces to
the permutation `[1, 0]`. -/
theorem getReducedPermutation_on_permutation_witness :
    getReducedPermutation ⟨2, [.dimRef 1, .dimRef 0]⟩ = .ok [1, 0] := by
  have h := getReducedPermutation_on_permutation 2 [1, 0] (by decide)
  simpa using h

/-- Claim C7: for every map given to the permutation reduction in which some
result is not a direct domain-dimension reference (broadcasting), the
reduction fails fatally — and the transfer patterns given such a map with an
available layout end in that fatal error, never in a recoverable no-match. -/
theorem broadcast_is_fatal (m : AffineMap) (h : hasBroadcast m = true) :
    getReducedPermutation m = .error () ∧
    ∀ (l : Layout) (op : TransferOp), op.permutationMap = m →
      distributeTransferRead (some (.layoutAttr l)) op = .fatal ∧
      distributeTransferWrite (some (.layoutAttr l)) op = .fatal := by
  have herr : getReducedPermutation m = .error () := by
    unfold getReducedPermutation
    exact reduceResults_broadcast _ m.results (by unfold hasBroadcast at h; exact h)
  refine ⟨herr, ?_⟩
  intro l op hm
  constructor <;>
    simp [distributeTransferRead, distributeTransferWrite,
      accessMemoryOutcome, hm, herr]

/-- Witness for C7 at a concrete broadcasting map. -/
theorem broadcast_is_fatal_witness :
    getReducedPermutation broadcastMap = .error () ∧
    distributeTransferRead (some (.layoutAttr layoutOne)) broadcastXfer
      = .fatal := by
  have h := broadcast_is_fatal broadcastMap (by decide)
  exact ⟨h.1, (h.2 layoutOne broadcastXfer rfl).1⟩

/-- Counterexample to claim C3: a transfer that would require partial/masked
access, with its layout available, is rewritten successfully — the patterns
do not return a no-match for masked transfers (the masking check is only a
TODO in the source, lines 281 and 325). -/
theorem transfer_masking_not_checked :
    maskedXfer.requiresMasking = true ∧
    distributeTransferRead (some (.layoutAttr layoutOne)) maskedXfer
      = .success ⟨layoutOne, 1⟩ ∧
    distributeTransferWrite (some (.layoutAttr layoutOne)) maskedXfer
      = .success ⟨layoutOne, 1⟩ := by
  refine ⟨rfl, ?_, ?_⟩ <;> rfl

/-- Claim C3 as amended: both transfer patterns return a recoverable
no-match exactly when the relevant value's layout is unavailable or is not a
`LayoutAttr`; a transfer requiring partial/masked access is not detected and
does not cause a no-match. -/
theorem transfer_noMatch_iff_layout_unavailable
    (sig : Option VectorLayoutInterface) (op : TransferOp) :
    (distributeTransferRead sig op = .noMatch
      ↔ isLayoutAttrSig sig = false) ∧
    (distributeTransferWrite sig op = .noMatch
      ↔ isLayoutAttrSig sig = false) := by
  constructor <;>
    (cases sig with
      | none =>
        simp [distributeTransferRead, distributeTransferWrite, isLayoutAttrSig]
      | some s =>
        cases s with
        | layoutAttr l =>
          simp [distributeTransferRead, distributeTransferWrite,
            isLayoutAttrSig, accessMemoryOutcome_ne_noMatch]
        | otherLayout sh =>
          simp [distributeTransferRead, distributeTransferWrite,
            isLayoutAttrSig])

/-- Claim C4: if the layout of some vector operand or vector result of an
elementwise op is unavailable, the pattern returns a recoverable no-match
(and hence builds no replacement). -/
theorem elementwise_noMatch_of_missing_layout (op : ElementwiseOp)
    (sig : OpValue → Option VectorLayoutInterface)
    (h : ∃ v ∈ op.operands ++ op.results, isVector v = true ∧ sig v = none) :
    distributeElementwise op sig = .noMatch := by
  obtain ⟨v, hv, hvec, hnone⟩ := h
  have hc : ¬((op.operands ++ op.results).all
      (fun v => !isVector v || (sig v).isSome) = true) := by
    intro hall
    have hmem := List.all_eq_true.mp hall v hv
    rw [hvec, hnone] at hmem
    simp at hmem
  simp [distributeElementwise, hc]

/-- Witness for C4: a vector-operand op under an empty layout assignment. -/
theorem elementwise_noMatch_of_missing_layout_witness :
    distributeElementwise vecAddOp (fun _ => none) = .noMatch :=
  elementwise_noMatch_of_missing_layout vecAddOp (fun _ => none) (by decide)

/-- Counterexample to claim C8: the lane-identity delinearization is not
performed once per call — on a two-dimensional layout one call re-emits it
inside each dimension's iteration, so it happens twice. -/
theorem laneDelinearization_once_per_call_cex :
    (computeSIMDIndexTrace stateA layoutW8 0).2 = 2 ∧ (2 : Nat) ≠ 1 := by
  refine ⟨rfl, by decide⟩

/-- Claim C8 as amended: in every invocation of `computeSIMDIndex` the lane
coordinates are obtained by row-major decomposition of the scalar lane
identity against the lane-grid extents ordered (Z, Y, X), read back out as
(X, Y, Z) — so the coordinates used are `laneId % X`, `laneId / X % Y` and
`laneId / (X * Y)` — but the decomposition is performed once per vector
dimension of the layout (inside the per-dimension loop), not once per
call. -/
theorem laneDelinearization_per_dim (state : IterState) (layout : Layout)
    (laneId : Nat) (dX dY dZ : Nat) :
    (computeSIMDIndexTrace state layout laneId).2 = layout.layouts.length ∧
    laneCoords laneId (dX, dY, dZ)
      = (laneId % dX, laneId / dX % dY, laneId / (dX * dY)) := by
  constructor
  · rw [computeSIMDIndexTrace_eq]
  · simp [laneCoords, delinearize, Nat.mod_mul_left_mod,
      Nat.mod_mul_left_div_self, Nat.mod_mul_right_div_self, Nat.mul_comm]

/-- Claim C9: for every layout and fixed lane, two iteration states over the
layout that differ in some non-lane label's position (with all positions in
range of their extents and all extents positive) compute addresses that
differ in at least one dimension. -/
theorem computeSIMDIndex_injective_per_lane (layout : Layout)
    (s1 s2 : IterState) (laneId : Nat)
    (hpos : ∀ dim ∈ layout.layouts, ∀ p ∈ dim, 0 < p.2)
    (hv1 : ∀ dim ∈ layout.layouts, ∀ p ∈ dim,
      isLaneLabel p.1 = false → s1 p.1 < p.2)
    (hv2 : ∀ dim ∈ layout.layouts, ∀ p ∈ dim,
      isLaneLabel p.1 = false → s2 p.1 < p.2)
    (hdiff : ∃ dim ∈ layout.layouts, ∃ p ∈ dim,
      isLaneLabel p.1 = false ∧ s1 p.1 ≠ s2 p.1) :
    computeSIMDIndex s1 layout laneId ≠ computeSIMDIndex s2 layout laneId := by
  rw [computeSIMDIndex_eq_specMap, computeSIMDIndex_eq_specMap]
  obtain ⟨dim0, hdim0, p0, hp0, hlane0, hne0⟩ := hdiff
  apply map_ne_of_mem_ne _ _ _ dim0 hdim0
  rw [specDimAddress_eq_radix, specDimAddress_eq_radix]
  apply radixDigitsSum_ne
  · intro p hp
    exact hpos dim0 hdim0 p (List.mem_reverse.mp hp)
  · intro p hp hpd
    have hmem := List.mem_reverse.mp hp
    have hlane : isLaneLabel p.1 = false := by
      rcases Bool.eq_false_or_eq_true (isLaneLabel p.1) with hb | hb
      · exact absurd
          (digitOf_lane_eq s1 s2 (laneCoords laneId layout.laneGrid) p.1 hb) hpd
      · exact hb
    rw [digitOf_eq_state _ _ _ hlane, digitOf_eq_state _ _ _ hlane]
    exact ⟨hv1 dim0 hdim0 p hmem hlane, hv2 dim0 hdim0 p hmem hlane⟩
  · refine ⟨p0, List.mem_reverse.mpr hp0, ?_⟩
    rw [digitOf_eq_state _ _ _ hlane0, digitOf_eq_state _ _ _ hlane0]
    exact hne0

/-- Witness for C9: two concrete states over a concrete layout differing on
the `BATCHX` position address distinct elements for lane 0. -/
theorem computeSIMDIndex_injective_per_lane_witness :
    computeSIMDIndex stateA layoutW9 0 ≠ computeSIMDIndex stateB layoutW9 0 :=
  computeSIMDIndex_injective_per_lane layoutW9 stateA stateB 0
    (by decide) (by decide) (by decide) (by decide)

/-- Claim C10: every op rewritten by the elementwise pattern carries the
original's fastmath attribute whenever the original has one, and carries no
attribute whose name is not the fastmath mnemonic. -/
theorem elementwise_attr_propagation (op : ElementwiseOp)
    (sig : OpValue → Option VectorLayoutInterface) (out : DistributedOp)
    (hsuc : distributeElementwise op sig = .success out) :
    (∀ v, getAttr op.attrs fastmathAttrName = some v →
      getAttr out.attrs fastmathAttrName = some v) ∧
    (∀ n, n ≠ fastmathAttrName → getAttr out.attrs n = none) := by
  unfold distributeElementwise at hsuc
  split at hsuc
  case isFalse => simp at hsuc
  case isTrue =>
    injection hsuc with hout
    rw [← hout]
    constructor
    · intro v hv
      show getAttr (propagateFastmath op.attrs) fastmathAttrName = some v
      unfold propagateFastmath
      rw [hv]
      exact getAttr_single_same fastmathAttrName v
    · intro n hn
      show getAttr (propagateFastmath op.attrs) n = none
      unfold propagateFastmath
      cases hfm : getAttr op.attrs fastmathAttrName with
      | none => rfl
      | some v => exact getAttr_single_other fastmathAttrName n v (Ne.symm hn)

/-- Witness for C10: a concrete op with a fastmath and one other attribute
keeps the former and drops the latter. -/
theorem elementwise_attr_propagation_witness :
    getAttr fmOut.attrs fastmathAttrName = some 7 ∧
    getAttr fmOut.attrs "other" = none := by
  have h := elementwise_attr_propagation fmOp (fun _ => none) fmOut (by rfl)
  exact ⟨h.1 7 (by rfl), h.2 "other" (by decide)⟩

end VectorDist
